import Mathlib

/-!
Shallow embedding of the `SegmentProstate_s4648123` prostate-MRI segmentation
scripts (`train.py`, `dataset.py`, `predict.py`): the Dice loss module, the
gradient-accumulation training loop, the best-model checkpointing policy, the
tensor-shape behaviour of the Dice computation under mismatched spatial
dimensions, and Python name resolution for the test dataloader.

Numeric tensors are modelled over `ℚ`; the `torch.softmax` exponential is a
parameter `ex : ℚ → ℚ` of the embedding (the real exponential is strictly
positive, which is the only property the proofs use, stated as an explicit
hypothesis where needed).
-/

namespace SegmentProstate

/-- Softmax along the class axis, `torch.softmax(pred, dim=1)`
(train.py line 40), parameterised by the scalar exponential map `ex`. -/
def softmaxT {B C D H W : ℕ} (ex : ℚ → ℚ)
    (p : Fin B → Fin C → Fin D → Fin H → Fin W → ℚ) :
    Fin B → Fin C → Fin D → Fin H → Fin W → ℚ :=
  fun b c d h w => ex (p b c d h w) / ∑ k, ex (p b k d h w)

/-- One-hot encoding with 6 classes after the `permute(0, 4, 1, 2, 3)` to
channel-second layout (train.py line 39): the entry at class `c` is 1 exactly
when the integer label equals `c`. -/
def oneHot6 (lab c : Fin 6) : ℚ := if lab = c then 1 else 0

/-- `Dice.dice_scores_per_class` (train.py lines 27-56).  The label tensor of
shape (B, 1, D, H, W) with values in [0, 6) appears here after
`target.squeeze(1).long()` as a function into `Fin 6`.  Softmax is applied to
the logits along the class axis, the labels are one-hot encoded to 6 classes,
the background class 0 is dropped by the slice `[:, 1:]` (so scored class `i`
is class `i.succ`), and for each scored class the sums reduce over the batch
axis and all spatial axes (axes `[0, 2, 3, 4]`). -/
def dice_scores_per_class (smooth : ℚ) (ex : ℚ → ℚ) {B D H W : ℕ}
    (pred : Fin B → Fin 6 → Fin D → Fin H → Fin W → ℚ)
    (target : Fin B → Fin D → Fin H → Fin W → Fin 6) : Fin 5 → ℚ :=
  fun i =>
    let c : Fin 6 := i.succ
    let sm := softmaxT ex pred
    let intersection := ∑ b, ∑ d, ∑ h, ∑ w, sm b c d h w * oneHot6 (target b d h w) c
    let ground_o := ∑ b, ∑ d, ∑ h, ∑ w, oneHot6 (target b d h w) c
    let pred_o := ∑ b, ∑ d, ∑ h, ∑ w, sm b c d h w
    (2 * intersection + smooth) / (ground_o + pred_o + smooth)

/-- `Dice.calculate_weighted_loss` (train.py lines 58-60):
`1 - torch.mean(class_dice_scores)` over the five scored classes; the
`target` argument is unused, exactly as in the source. -/
def calculate_weighted_loss {T : Type} (class_dice_scores : Fin 5 → ℚ) (target : T) : ℚ :=
  1 - (∑ i, class_dice_scores i) / 5

/-- `Dice.forward` (train.py lines 62-74): per-class scores then the loss
reduction. -/
def dice_forward (smooth : ℚ) (ex : ℚ → ℚ) {B D H W : ℕ}
    (pred : Fin B → Fin 6 → Fin D → Fin H → Fin W → ℚ)
    (target : Fin B → Fin D → Fin H → Fin W → Fin 6) : ℚ :=
  calculate_weighted_loss (dice_scores_per_class smooth ex pred target) target

/-- The default smoothing constant `smooth=1e-6` (train.py line 17). -/
def smoothDefault : ℚ := 1 / 1000000

/-! ### Shape-level semantics of the Dice computation

PyTorch raises a runtime error on an elementwise operation exactly when the
operand shapes are not broadcast-compatible; a dimension pair broadcasts when
the sizes are equal or one of them is 1.  `dice_scores_shape` follows
`dice_scores_per_class` at the level of shapes: one-hot plus permute on the
(B, 1, D, H, W) target gives (B, 6, D, H, W), softmax keeps the logits shape,
both are sliced to 5 classes, the product `pred * target_one_hot`
(train.py line 49) broadcasts, the reductions over axes [0, 2, 3, 4] leave the
class axis, and the final quotient broadcasts the per-class vectors. -/

/-- Broadcasting of one dimension pair (PyTorch semantics). -/
def broadcastDim (a b : ℕ) : Option ℕ :=
  if a = b then some a else if a = 1 then some b else if b = 1 then some a else none

/-- Broadcasting of two equal-rank shapes, dimension by dimension. -/
def broadcastShape : List ℕ → List ℕ → Option (List ℕ)
  | [], [] => some []
  | a :: as, b :: bs =>
      (broadcastDim a b).bind fun d =>
        (broadcastShape as bs).map fun rest => d :: rest
  | _, _ => none

/-- Shape-level run of `Dice.dice_scores_per_class`: given the logits shape
and the target shape (channel dimension 1), return the shape of the per-class
score tensor, or `none` when some elementwise operation fails to broadcast. -/
def dice_scores_shape : List ℕ → List ℕ → Option (List ℕ)
  | [bp, cp, dp, hp, wp], [bt, ct, dt, ht, wt] =>
    if ct = 1 then
      (broadcastShape [bp, cp - 1, dp, hp, wp] [bt, 5, dt, ht, wt]).bind fun inter =>
        match inter with
        | [_, ci, _, _, _] =>
          (broadcastDim 5 (cp - 1)).bind fun cg =>
            (broadcastDim ci cg).map fun cf => [cf]
        | _ => none
    else none
  | _, _ => none

/-! ### The training epoch loop

`train(model, dataloader, optimizer, crit, accumulation_steps)` (train.py
lines 77-101).  The model, loss criterion and optimizer are bundled into an
abstract `TrainModel`: `loss` is the forward pass composed with the criterion,
`gradOf` is the gradient of the unscaled loss at the current parameters,
`smul` scales a gradient (backward of `loss / accumulation_steps` contributes
the `1 / accumulation_steps`-scaled gradient), `addGrad` is the accumulation
performed by `backward()`, `stepOpt` is `optimizer.step()` reading the
accumulated gradient, and `zeroGrad` is `optimizer.zero_grad()`. -/

structure TrainModel (P G B : Type) where
  loss : P → B → ℚ
  gradOf : P → B → G
  smul : ℚ → G → G
  addGrad : G → G → G
  stepOpt : P → G → P
  zeroGrad : G

/-- Mutable state threaded through one epoch: the model parameters, the
accumulated gradient buffer, and the running `epoch_loss`. -/
structure TrainState (P G : Type) where
  params : P
  grad : G
  lossSum : ℚ

/-- One iteration of the loop body (train.py lines 82-97): forward pass,
loss, scaling by `1 / accumulation_steps`, backward accumulation, optimizer
step with gradient reset when `(i + 1) % accumulation_steps == 0`, and the
tracking update `epoch_loss += loss.item() * accumulation_steps`. -/
def train_step {P G B : Type} (M : TrainModel P G B) (acc : ℕ) (i : ℕ)
    (s : TrainState P G) (b : B) : TrainState P G :=
  let l := M.loss s.params b
  let scaled := l / (acc : ℚ)
  let g2 := M.addGrad s.grad (M.smul (1 / (acc : ℚ)) (M.gradOf s.params b))
  if (i + 1) % acc = 0 then
    { params := M.stepOpt s.params g2, grad := M.zeroGrad,
      lossSum := s.lossSum + scaled * (acc : ℚ) }
  else
    { params := s.params, grad := g2, lossSum := s.lossSum + scaled * (acc : ℚ) }

/-- The `for i, batch_data in enumerate(dataloader)` loop. -/
def train_loop {P G B : Type} (M : TrainModel P G B) (acc : ℕ) :
    ℕ → TrainState P G → List B → TrainState P G
  | _, s, [] => s
  | i, s, b :: bs => train_loop M acc (i + 1) (train_step M acc i s b) bs

/-- `train` (train.py lines 77-101): run the loop with `epoch_loss` starting
at 0 and return the mean `epoch_loss / len(dataloader)` together with the
final model and optimizer state, which persists across epochs. -/
def train {P G B : Type} (M : TrainModel P G B) (acc : ℕ) (s0 : TrainState P G)
    (batches : List B) : ℚ × TrainState P G :=
  let sf := train_loop M acc 0 { params := s0.params, grad := s0.grad, lossSum := 0 } batches
  (sf.lossSum / (batches.length : ℚ), sf)

/-- One iteration as the specification words it (spec §4.2): the raw loss is
accumulated after undoing the scaling, and the optimizer step with gradient
reset happens exactly when the 1-based batch index is a multiple of
`accumulation_steps`. -/
def train_step_spec {P G B : Type} (M : TrainModel P G B) (acc : ℕ) (i : ℕ)
    (s : TrainState P G) (b : B) : TrainState P G :=
  let l := M.loss s.params b
  let g2 := M.addGrad s.grad (M.smul (1 / (acc : ℚ)) (M.gradOf s.params b))
  if acc ∣ (i + 1) then
    { params := M.stepOpt s.params g2, grad := M.zeroGrad, lossSum := s.lossSum + l }
  else
    { params := s.params, grad := g2, lossSum := s.lossSum + l }

/-- Loop of the specification-side epoch. -/
def train_loop_spec {P G B : Type} (M : TrainModel P G B) (acc : ℕ) :
    ℕ → TrainState P G → List B → TrainState P G
  | _, s, [] => s
  | i, s, b :: bs => train_loop_spec M acc (i + 1) (train_step_spec M acc i s b) bs

/-- Specification-side epoch: mean of the raw per-batch losses. -/
def train_spec {P G B : Type} (M : TrainModel P G B) (acc : ℕ) (s0 : TrainState P G)
    (batches : List B) : ℚ × TrainState P G :=
  let sf := train_loop_spec M acc 0 { params := s0.params, grad := s0.grad, lossSum := 0 } batches
  (sf.lossSum / (batches.length : ℚ), sf)

/-- Observation model for the loop control flow: the parameter component
counts `optimizer.step()` invocations and the gradient buffer counts
`backward()` accumulations since the last `zero_grad()`. -/
def countModel (B : Type) (f : B → ℚ) : TrainModel ℕ ℕ B where
  loss := fun _ b => f b
  gradOf := fun _ _ => 1
  smul := fun _ g => g
  addGrad := fun g1 g2 => g1 + g2
  stepOpt := fun p _ => p + 1
  zeroGrad := 0

/-- A model whose loss drifts with every optimizer step: the loss equals the
current parameter value and each step increases the parameter by the
accumulated gradient. -/
def driftModel : TrainModel ℚ ℚ Unit where
  loss := fun p _ => p
  gradOf := fun _ _ => 1
  smul := fun q g => q * g
  addGrad := fun g1 g2 => g1 + g2
  stepOpt := fun p g => p + g
  zeroGrad := 0

/-- `driftModel` with the optimizer step disabled: parameters never change. -/
def frozenModel : TrainModel ℚ ℚ Unit where
  loss := fun p _ => p
  gradOf := fun _ _ => 1
  smul := fun q g => q * g
  addGrad := fun g1 g2 => g1 + g2
  stepOpt := fun p _ => p
  zeroGrad := 0

/-! ### Best-model checkpointing (train.py lines 143-170) -/

/-- State of the checkpointing policy: the tracked `best_metric`, the tracked
`best_state`, and the contents of the checkpoint file at `MODEL_PATH`
(`none` while nothing has been saved). -/
structure CheckState (S : Type) where
  best : ℚ
  bestState : S
  savedFile : Option S

/-- One epoch of the policy (train.py lines 167-170): when the validation
loss is strictly below the best seen so far, record it, capture the model
state and overwrite the checkpoint file. -/
def checkpoint_step {S : Type} (cs : CheckState S) (e : ℚ × S) : CheckState S :=
  if e.1 < cs.best then { best := e.1, bestState := e.2, savedFile := some e.2 } else cs

/-- The whole training run as seen by the policy: a list of
(validation loss, model state after the epoch) pairs folded from the initial
`best_metric = 100.0`, `best_state = unet.state_dict()` and no saved file
(train.py lines 143-144). -/
def checkpoint_run {S : Type} (s0 : S) (epochs : List (ℚ × S)) : CheckState S :=
  epochs.foldl checkpoint_step { best := 100, bestState := s0, savedFile := none }

/-! ### Python name resolution for `get_test_dataloader` (dataset.py 180-192)
and the predict entry point (predict.py 13-21)

Statements are modelled by their effect on the local scope plus the name
lookups their expressions perform; a lookup that misses the local scope, the
module globals and the builtins raises `NameError`.  The external effects
(file listing, numpy, dataset construction) are irrelevant to name
resolution and are elided. -/

/-- Names bound at module scope of dataset.py by its imports and top-level
definitions. -/
def datasetModuleGlobals : List String :=
  ["os", "Sequence", "Mapping", "np", "load_data_3D", "Compose", "ToTensord",
   "Spacingd", "EnsureChannelFirstd", "ScaleIntensityRanged", "CropForegroundd",
   "Orientationd", "RandCropByPosNegLabeld", "Affined", "Dataset", "DataLoader",
   "default_collate", "train_transforms", "val_transforms", "transforms_dict",
   "MRIDataset", "collate_batch", "get_images", "get_dataloaders",
   "get_test_dataloader"]

/-- The Python builtins the modelled statements use. -/
def pyBuiltins : List String := ["len", "int", "print"]

/-- Resolve a name: local scope, then module globals, then builtins;
otherwise `NameError`. -/
def pyLookup (locals globals : List String) (n : String) : Except String Unit :=
  if n ∈ locals then Except.ok ()
  else if n ∈ globals then Except.ok ()
  else if n ∈ pyBuiltins then Except.ok ()
  else Except.error ("NameError: name " ++ n ++ " is not defined")

/-- `get_test_dataloader(batch_size)` (dataset.py lines 180-192), statement by
statement.  Every expression resolves its free names against the current
local scope and the module globals; each assignment extends the local scope.
The `DataLoader(...)` call on lines 190-191 evaluates its keyword argument
`batch_size=val_batch`, and `val_batch` is bound nowhere (it is only a
parameter of the separate function `get_dataloaders`). -/
def get_test_dataloader (batchSize : ℕ) : Except String Unit := do
  let g := datasetModuleGlobals
  let l0 := [("batch_size")]
  let _ ← pyLookup l0 g ("get_images")
  let l1 := ("mask_files") :: ("image_files") :: l0
  let _ ← pyLookup l1 g ("len")
  let _ ← pyLookup l1 g ("image_files")
  let l2 := ("num_samples") :: l1
  let _ ← pyLookup l2 g ("np")
  let _ ← pyLookup l2 g ("np")
  let _ ← pyLookup l2 g ("num_samples")
  let l3 := ("indices") :: l2
  let _ ← pyLookup l3 g ("int")
  let _ ← pyLookup l3 g ("num_samples")
  let l4 := ("split") :: l3
  let _ ← pyLookup l4 g ("indices")
  let _ ← pyLookup l4 g ("split")
  let l5 := ("test_idx") :: l4
  let _ ← pyLookup l5 g ("image_files")
  let _ ← pyLookup l5 g ("test_idx")
  let _ ← pyLookup l5 g ("mask_files")
  let _ ← pyLookup l5 g ("test_idx")
  let l6 := ("test_masks") :: ("test_images") :: l5
  let _ ← pyLookup l6 g ("MRIDataset")
  let _ ← pyLookup l6 g ("test_images")
  let _ ← pyLookup l6 g ("test_masks")
  let l7 := ("test_ds") :: l6
  let _ ← pyLookup l7 g ("DataLoader")
  let _ ← pyLookup l7 g ("test_ds")
  let _ ← pyLookup l7 g ("val_batch")
  let _ ← pyLookup l7 g ("collate_batch")
  let _ ← pyLookup (("test_dataloader") :: l7) g ("test_dataloader")
  Except.ok ()

/-- The `__main__` block of predict.py (lines 13-21): the model is built and
`get_test_dataloader(batch_size=1)` is called before the
`os.path.exists(MODEL_PATH)` check, so any exception from the loader
construction escapes regardless of whether the checkpoint file exists. -/
def predict_main (modelPathExists : Bool) : Except String Unit := do
  let _ ← get_test_dataloader 1
  if modelPathExists then
    Except.ok ()
  else
    Except.ok ()

/-! ### Concrete inputs used by witnesses and counterexamples -/

/-- Logits whose softmax under `ex = id` is exactly the one-hot encoding of
the all-background label volume, at the spec scenario shape (2, 1, 8, 8, 8). -/
def predPerfect : Fin 2 → Fin 6 → Fin 8 → Fin 8 → Fin 8 → ℚ :=
  fun _ c _ _ _ => if c = 0 then 1 else 0

/-- All-background label volume of shape (2, 1, 8, 8, 8) after the squeeze. -/
def targetZero : Fin 2 → Fin 8 → Fin 8 → Fin 8 → Fin 6 := fun _ _ _ _ => 0

/-- A constantly positive stand-in for the exponential. -/
def exOne : ℚ → ℚ := fun _ => 1

/-- Zero logits at a minimal shape. -/
def predZero : Fin 1 → Fin 6 → Fin 1 → Fin 1 → Fin 1 → ℚ := fun _ _ _ _ _ => 0

/-- All-background labels at a minimal shape. -/
def targetZero1 : Fin 1 → Fin 1 → Fin 1 → Fin 1 → Fin 6 := fun _ _ _ _ => 0

/-- Initial training state with rational parameters and gradient. -/
def s00Q : TrainState ℚ ℚ := { params := 0, grad := 0, lossSum := 0 }

/-- Initial training state for the counting observation model. -/
def tsZero : TrainState ℕ ℕ := { params := 0, grad := 0, lossSum := 0 }

/-- Four data batches (their contents are irrelevant to `driftModel`). -/
def fourBatches : List Unit := [(), (), (), ()]

/-- Six data batches for the step-count observation. -/
def sixUnits : List Unit := [(), (), (), (), (), ()]

/-- A zero loss on unit batches. -/
def uZero : Unit → ℚ := fun _ => 0

/-- A small concrete training model over rational parameters. -/
def demoModel : TrainModel ℚ ℚ ℚ where
  loss := fun p b => p + b
  gradOf := fun _ b => b
  smul := fun q g => q * g
  addGrad := fun g1 g2 => g1 + g2
  stepOpt := fun p g => p - g
  zeroGrad := 0

/-- Three rational data batches. -/
def batches3 : List ℚ := [1, 2, 3]

/-- Three epochs of (validation loss, model state) pairs. -/
def epochsEx : List (ℚ × ℕ) := [(1 / 2, 10), (1 / 4, 20), (3 / 4, 30)]

/-! ## Helper lemmas about the Dice computation -/

lemma oneHot6_nonneg (lab c : Fin 6) : 0 ≤ oneHot6 lab c := by
  unfold oneHot6; split <;> norm_num

lemma oneHot6_le_one (lab c : Fin 6) : oneHot6 lab c ≤ 1 := by
  unfold oneHot6; split <;> norm_num

lemma oneHot6_idem (lab c : Fin 6) : oneHot6 lab c * oneHot6 lab c = oneHot6 lab c := by
  unfold oneHot6; split <;> norm_num

lemma softmaxT_nonneg {B C D H W : ℕ} (ex : ℚ → ℚ) (hex : ∀ x, 0 < ex x)
    (p : Fin B → Fin C → Fin D → Fin H → Fin W → ℚ)
    (b : Fin B) (c : Fin C) (d : Fin D) (h : Fin H) (w : Fin W) :
    0 ≤ softmaxT ex p b c d h w := by
  unfold softmaxT
  have hs : 0 < ∑ k, ex (p b k d h w) :=
    Finset.sum_pos (fun k _ => hex _) ⟨c, Finset.mem_univ c⟩
  exact le_of_lt (div_pos (hex _) hs)

lemma softmaxT_le_one {B C D H W : ℕ} (ex : ℚ → ℚ) (hex : ∀ x, 0 < ex x)
    (p : Fin B → Fin C → Fin D → Fin H → Fin W → ℚ)
    (b : Fin B) (c : Fin C) (d : Fin D) (h : Fin H) (w : Fin W) :
    softmaxT ex p b c d h w ≤ 1 := by
  unfold softmaxT
  have hs : 0 < ∑ k, ex (p b k d h w) :=
    Finset.sum_pos (fun k _ => hex _) ⟨c, Finset.mem_univ c⟩
  rw [div_le_one hs]
  exact Finset.single_le_sum (fun k _ => (hex (p b k d h w)).le) (Finset.mem_univ c)

lemma sum4_nonneg {B D H W : ℕ} {f : Fin B → Fin D → Fin H → Fin W → ℚ}
    (hf : ∀ b d h w, 0 ≤ f b d h w) :
    0 ≤ ∑ b, ∑ d, ∑ h, ∑ w, f b d h w :=
  Finset.sum_nonneg fun b _ => Finset.sum_nonneg fun d _ =>
    Finset.sum_nonneg fun h _ => Finset.sum_nonneg fun w _ => hf b d h w

lemma sum4_mono {B D H W : ℕ} {f g : Fin B → Fin D → Fin H → Fin W → ℚ}
    (hfg : ∀ b d h w, f b d h w ≤ g b d h w) :
    (∑ b, ∑ d, ∑ h, ∑ w, f b d h w) ≤ ∑ b, ∑ d, ∑ h, ∑ w, g b d h w :=
  Finset.sum_le_sum fun b _ => Finset.sum_le_sum fun d _ =>
    Finset.sum_le_sum fun h _ => Finset.sum_le_sum fun w _ => hfg b d h w

lemma dice_scores_eq (smooth : ℚ) (ex : ℚ → ℚ) {B D H W : ℕ}
    (pred : Fin B → Fin 6 → Fin D → Fin H → Fin W → ℚ)
    (target : Fin B → Fin D → Fin H → Fin W → Fin 6) (i : Fin 5) :
    dice_scores_per_class smooth ex pred target i =
      (2 * (∑ b, ∑ d, ∑ h, ∑ w,
          softmaxT ex pred b i.succ d h w * oneHot6 (target b d h w) i.succ) + smooth) /
        ((∑ b, ∑ d, ∑ h, ∑ w, oneHot6 (target b d h w) i.succ) +
          (∑ b, ∑ d, ∑ h, ∑ w, softmaxT ex pred b i.succ d h w) + smooth) := rfl

lemma dice_quot_pos {I G P s : ℚ} (hI : 0 ≤ I) (hG : 0 ≤ G) (hP : 0 ≤ P) (hs : 0 < s) :
    0 < (2 * I + s) / (G + P + s) :=
  div_pos (by linarith) (by linarith)

lemma dice_quot_le_one {I G P s : ℚ} (hIG : I ≤ G) (hIP : I ≤ P)
    (hG : 0 ≤ G) (hP : 0 ≤ P) (hs : 0 < s) :
    (2 * I + s) / (G + P + s) ≤ 1 := by
  rw [div_le_one (by linarith)]
  linarith

lemma dice_score_pos (smooth : ℚ) (ex : ℚ → ℚ) {B D H W : ℕ}
    (hs : 0 < smooth) (hex : ∀ x, 0 < ex x)
    (pred : Fin B → Fin 6 → Fin D → Fin H → Fin W → ℚ)
    (target : Fin B → Fin D → Fin H → Fin W → Fin 6) (i : Fin 5) :
    0 < dice_scores_per_class smooth ex pred target i := by
  rw [dice_scores_eq]
  exact dice_quot_pos
    (sum4_nonneg fun b d h w =>
      mul_nonneg (softmaxT_nonneg ex hex pred b i.succ d h w) (oneHot6_nonneg _ _))
    (sum4_nonneg fun b d h w => oneHot6_nonneg _ _)
    (sum4_nonneg fun b d h w => softmaxT_nonneg ex hex pred b i.succ d h w) hs

lemma dice_score_le_one (smooth : ℚ) (ex : ℚ → ℚ) {B D H W : ℕ}
    (hs : 0 < smooth) (hex : ∀ x, 0 < ex x)
    (pred : Fin B → Fin 6 → Fin D → Fin H → Fin W → ℚ)
    (target : Fin B → Fin D → Fin H → Fin W → Fin 6) (i : Fin 5) :
    dice_scores_per_class smooth ex pred target i ≤ 1 := by
  rw [dice_scores_eq]
  exact dice_quot_le_one
    (sum4_mono fun b d h w =>
      mul_le_of_le_one_left (oneHot6_nonneg _ _) (softmaxT_le_one ex hex pred b i.succ d h w))
    (sum4_mono fun b d h w =>
      mul_le_of_le_one_right (softmaxT_nonneg ex hex pred b i.succ d h w) (oneHot6_le_one _ _))
    (sum4_nonneg fun b d h w => oneHot6_nonneg _ _)
    (sum4_nonneg fun b d h w => softmaxT_nonneg ex hex pred b i.succ d h w) hs

/-! ## Claim theorems: the Dice loss -/

/-- C1: for every logits tensor of shape (B, 6, D, H, W) and every label
tensor with values in [0, 6), the per-class Dice computation applies softmax
along the class axis, one-hot encodes the labels to 6 classes, and for each
scored class `c = i.succ` returns
`(2*intersection + smooth) / (pred_sum + target_sum + smooth)` with
`intersection = sum(pred*target)`, `pred_sum = sum(pred)`,
`target_sum = sum(target)` each reduced over the batch and all spatial axes,
with the default `smooth = 1e-6`. -/
theorem dice_scores_formula {B D H W : ℕ} (ex : ℚ → ℚ)
    (pred : Fin B → Fin 6 → Fin D → Fin H → Fin W → ℚ)
    (target : Fin B → Fin D → Fin H → Fin W → Fin 6) (i : Fin 5) :
    dice_scores_per_class smoothDefault ex pred target i =
      (2 * (∑ b, ∑ d, ∑ h, ∑ w,
          (ex (pred b i.succ d h w) / ∑ k, ex (pred b k d h w)) *
            (if target b d h w = i.succ then (1 : ℚ) else 0)) + smoothDefault) /
        ((∑ b, ∑ d, ∑ h, ∑ w, ex (pred b i.succ d h w) / ∑ k, ex (pred b k d h w)) +
          (∑ b, ∑ d, ∑ h, ∑ w, (if target b d h w = i.succ then (1 : ℚ) else 0)) +
          smoothDefault) := by
  rw [dice_scores_eq]
  simp only [softmaxT, oneHot6]
  ring

/-- C2: the Dice loss equals 1 minus the arithmetic mean of the per-class
Dice score vector, and it lies in [0, 1] (for any positive smoothing constant
and any strictly positive exponential, as the real exponential is). -/
theorem dice_loss_one_minus_mean {B D H W : ℕ} (smooth : ℚ) (ex : ℚ → ℚ)
    (hs : 0 < smooth) (hex : ∀ x, 0 < ex x)
    (pred : Fin B → Fin 6 → Fin D → Fin H → Fin W → ℚ)
    (target : Fin B → Fin D → Fin H → Fin W → Fin 6) :
    dice_forward smooth ex pred target =
      1 - (∑ i, dice_scores_per_class smooth ex pred target i) / 5 ∧
    0 ≤ dice_forward smooth ex pred target ∧
    dice_forward smooth ex pred target ≤ 1 := by
  have hsum_le : (∑ i, dice_scores_per_class smooth ex pred target i) ≤ 5 := by
    calc (∑ i, dice_scores_per_class smooth ex pred target i)
        ≤ ∑ _i : Fin 5, (1 : ℚ) :=
          Finset.sum_le_sum fun i _ => dice_score_le_one smooth ex hs hex pred target i
      _ = 5 := by simp
  have hsum_nonneg : 0 ≤ ∑ i, dice_scores_per_class smooth ex pred target i :=
    Finset.sum_nonneg fun i _ => (dice_score_pos smooth ex hs hex pred target i).le
  refine ⟨rfl, ?_, ?_⟩
  · show 0 ≤ 1 - (∑ i, dice_scores_per_class smooth ex pred target i) / 5
    linarith
  · show 1 - (∑ i, dice_scores_per_class smooth ex pred target i) / 5 ≤ 1
    linarith

/-- C2 witness: the loss bounds at a concrete input. -/
theorem dice_loss_one_minus_mean_witness :
    0 ≤ dice_forward smoothDefault exOne predZero targetZero1 ∧
    dice_forward smoothDefault exOne predZero targetZero1 ≤ 1 :=
  (dice_loss_one_minus_mean smoothDefault exOne (by norm_num [smoothDefault])
    (fun x => by norm_num [exOne]) predZero targetZero1).2

/-- C3 counterexample: the claim asserts that the concrete perfect-match
scenario yields 6 per-class scores, but the computation excludes the
background class and returns exactly 5 scores: at the scenario input of label
shape (2, 1, 8, 8, 8) the score sequence does not have length 6. -/
theorem dice_six_scores_counterexample :
    ¬ (List.ofFn (dice_scores_per_class smoothDefault id predPerfect targetZero)).length = 6 := by
  simp

/-- C3 amended: whenever the post-softmax prediction equals the one-hot
encoding of the labels, every one of the 5 scored per-class Dice scores
equals 1 exactly and the loss equals 0 exactly. -/
theorem dice_perfect_match (smooth : ℚ) (ex : ℚ → ℚ) {B D H W : ℕ}
    (pred : Fin B → Fin 6 → Fin D → Fin H → Fin W → ℚ)
    (target : Fin B → Fin D → Fin H → Fin W → Fin 6) (hs : 0 < smooth)
    (hmatch : softmaxT ex pred = fun b c d h w => oneHot6 (target b d h w) c) :
    (∀ i : Fin 5, dice_scores_per_class smooth ex pred target i = 1) ∧
    dice_forward smooth ex pred target = 0 := by
  have hscore : ∀ i : Fin 5, dice_scores_per_class smooth ex pred target i = 1 := by
    intro i
    rw [dice_scores_eq, hmatch]
    simp only [oneHot6_idem]
    have hG : 0 ≤ ∑ b, ∑ d, ∑ h, ∑ w, oneHot6 (target b d h w) i.succ :=
      sum4_nonneg fun b d h w => oneHot6_nonneg _ _
    rw [two_mul]
    exact div_self (by linarith)
  refine ⟨hscore, ?_⟩
  unfold dice_forward calculate_weighted_loss
  rw [Finset.sum_congr rfl fun i _ => hscore i]
  norm_num

/-- The scenario logits of `predPerfect` softmax (under the identity
exponential) to exactly the one-hot encoding of `targetZero`. -/
lemma predPerfect_softmax :
    softmaxT id predPerfect = fun b c d h w => oneHot6 (targetZero b d h w) c := by
  funext b c d h w
  simp only [softmaxT, predPerfect, targetZero, oneHot6, id_eq]
  have hsum : (∑ k : Fin 6, (if k = (0 : Fin 6) then (1 : ℚ) else 0)) = 1 := by
    rw [Finset.sum_ite_eq' Finset.univ (0 : Fin 6) (fun _ => (1 : ℚ))]
    simp
  rw [hsum, div_one]
  by_cases hc : c = 0
  · subst hc; simp
  · simp [hc, Ne.symm hc]

/-- C3 witness: at the perfect-match scenario input of shape (2, 1, 8, 8, 8),
a scored class has Dice score 1 and the loss is 0. -/
theorem dice_perfect_match_witness :
    dice_scores_per_class smoothDefault id predPerfect targetZero 2 = 1 ∧
    dice_forward smoothDefault id predPerfect targetZero = 0 := by
  have h := dice_perfect_match smoothDefault id predPerfect targetZero
    (by norm_num [smoothDefault]) predPerfect_softmax
  exact ⟨h.1 2, h.2⟩

/-- C4: the per-class score sequence has exactly `num_classes - 1 = 5`
entries (the background class 0 is excluded), every entry lies in the
half-open interval (0, 1], and every per-class denominator is at least
`smooth`, hence strictly positive, with no branching involved. -/
theorem dice_scores_length_and_range {B D H W : ℕ} (smooth : ℚ) (ex : ℚ → ℚ)
    (hs : 0 < smooth) (hex : ∀ x, 0 < ex x)
    (pred : Fin B → Fin 6 → Fin D → Fin H → Fin W → ℚ)
    (target : Fin B → Fin D → Fin H → Fin W → Fin 6) :
    (List.ofFn (dice_scores_per_class smooth ex pred target)).length = 6 - 1 ∧
    (∀ i : Fin 5, 0 < dice_scores_per_class smooth ex pred target i ∧
      dice_scores_per_class smooth ex pred target i ≤ 1) ∧
    (∀ i : Fin 5, smooth ≤
      (∑ b, ∑ d, ∑ h, ∑ w, oneHot6 (target b d h w) i.succ) +
        (∑ b, ∑ d, ∑ h, ∑ w, softmaxT ex pred b i.succ d h w) + smooth) := by
  refine ⟨by simp, fun i => ⟨dice_score_pos smooth ex hs hex pred target i,
    dice_score_le_one smooth ex hs hex pred target i⟩, fun i => ?_⟩
  have hG : 0 ≤ ∑ b, ∑ d, ∑ h, ∑ w, oneHot6 (target b d h w) i.succ :=
    sum4_nonneg fun b d h w => oneHot6_nonneg _ _
  have hP : 0 ≤ ∑ b, ∑ d, ∑ h, ∑ w, softmaxT ex pred b i.succ d h w :=
    sum4_nonneg fun b d h w => softmaxT_nonneg ex hex pred b i.succ d h w
  linarith

/-- C4 witness: the length of the score sequence at a concrete input. -/
theorem dice_scores_length_and_range_witness :
    (List.ofFn (dice_scores_per_class smoothDefault exOne predZero targetZero1)).length = 6 - 1 :=
  (dice_scores_length_and_range smoothDefault exOne (by norm_num [smoothDefault])
    (fun x => by norm_num [exOne]) predZero targetZero1).1

/-! ## Helper lemmas about the training loop -/

lemma train_step_eq_spec {P G B : Type} (M : TrainModel P G B) (acc : ℕ) (hacc : acc ≠ 0)
    (i : ℕ) (s : TrainState P G) (b : B) :
    train_step M acc i s b = train_step_spec M acc i s b := by
  have hca : ((acc : ℚ)) ≠ 0 := Nat.cast_ne_zero.mpr hacc
  have hl : M.loss s.params b / (acc : ℚ) * (acc : ℚ) = M.loss s.params b :=
    div_mul_cancel₀ _ hca
  unfold train_step train_step_spec
  simp only [Nat.dvd_iff_mod_eq_zero, hl]

lemma train_loop_eq_spec {P G B : Type} (M : TrainModel P G B) (acc : ℕ) (hacc : acc ≠ 0) :
    ∀ (bs : List B) (i : ℕ) (s : TrainState P G),
      train_loop M acc i s bs = train_loop_spec M acc i s bs := by
  intro bs
  induction bs with
  | nil => intro i s; rfl
  | cons b bs ih =>
      intro i s
      simp only [train_loop, train_loop_spec]
      rw [train_step_eq_spec M acc hacc i s b]
      exact ih (i + 1) _

lemma train_step_frozen {P G B : Type} (M : TrainModel P G B)
    (hfrozen : ∀ p g, M.stepOpt p g = p) (acc : ℕ) (hacc : acc ≠ 0)
    (i : ℕ) (s : TrainState P G) (b : B) :
    (train_step M acc i s b).params = s.params ∧
    (train_step M acc i s b).lossSum = s.lossSum + M.loss s.params b := by
  have hca : ((acc : ℚ)) ≠ 0 := Nat.cast_ne_zero.mpr hacc
  have hl : M.loss s.params b / (acc : ℚ) * (acc : ℚ) = M.loss s.params b :=
    div_mul_cancel₀ _ hca
  unfold train_step
  by_cases h : (i + 1) % acc = 0 <;> simp [h, hfrozen, hl]

lemma frozen_loop {P G B : Type} (M : TrainModel P G B)
    (hfrozen : ∀ p g, M.stepOpt p g = p) (acc : ℕ) (hacc : acc ≠ 0) :
    ∀ (bs : List B) (i : ℕ) (s : TrainState P G),
      (train_loop M acc i s bs).params = s.params ∧
      (train_loop M acc i s bs).lossSum = s.lossSum + (bs.map (M.loss s.params)).sum := by
  intro bs
  induction bs with
  | nil => intro i s; simp [train_loop]
  | cons b bs ih =>
      intro i s
      simp only [train_loop]
      have hstep := train_step_frozen M hfrozen acc hacc i s b
      have h2 := ih (i + 1) (train_step M acc i s b)
      refine ⟨h2.1.trans hstep.1, ?_⟩
      rw [h2.2, hstep.1, hstep.2, List.map_cons, List.sum_cons]
      ring

/-! ## Claim theorems: the training loop -/

/-- C5: one training epoch processes the batches in order (forward pass, Dice
loss, division by `accumulation_steps`, backward accumulation, optimizer step
with gradient reset exactly when the 1-based batch index is a multiple of
`accumulation_steps`), and the returned value is the mean over all batches of
the scaled loss multiplied back by `accumulation_steps`, i.e. the mean of the
raw per-batch losses: the loop refines the specification-side epoch
`train_spec` exactly, final model and optimizer state included. -/
theorem train_refines_spec {P G B : Type} (M : TrainModel P G B) (acc : ℕ)
    (hacc : acc ≠ 0) (s0 : TrainState P G) (batches : List B) :
    train M acc s0 batches = train_spec M acc s0 batches := by
  unfold train train_spec
  rw [train_loop_eq_spec M acc hacc]

/-- C5 witness: the refinement at a concrete model, accumulation 2 and three
batches. -/
theorem train_refines_spec_witness :
    train demoModel 2 s00Q batches3 = train_spec demoModel 2 s00Q batches3 :=
  train_refines_spec demoModel 2 (by decide) s00Q batches3

/-- C6 counterexample: same four data batches, same initial state, a model
whose loss tracks its parameter; the reported epoch loss is 3/2 under
`accumulation_steps = 1` but 0 under `accumulation_steps = 4`.  The two
configurations do not merely differ in update timing: the per-batch losses
are evaluated at parameters that depend on that timing, so the reported mean
losses differ, here by 3/2. -/
theorem train_accumulation_counterexample :
    (train driftModel 1 s00Q fourBatches).1 = 3 / 2 ∧
    (train driftModel 4 s00Q fourBatches).1 = 0 ∧
    (train driftModel 1 s00Q fourBatches).1 ≠ (train driftModel 4 s00Q fourBatches).1 := by
  norm_num [train, train_loop, train_step, driftModel, s00Q, fourBatches]

/-- C6 amended: when the optimizer step leaves the parameters unchanged (so
the parameter trajectory cannot depend on the update timing), the epoch
losses reported under any two nonzero accumulation settings — in particular
1 and 4 — are exactly equal. -/
theorem train_accumulation_frozen_equiv {P G B : Type} (M : TrainModel P G B)
    (hfrozen : ∀ p g, M.stepOpt p g = p) (a1 a2 : ℕ) (h1 : a1 ≠ 0) (h2 : a2 ≠ 0)
    (s0 : TrainState P G) (batches : List B) :
    (train M a1 s0 batches).1 = (train M a2 s0 batches).1 := by
  have hl1 := (frozen_loop M hfrozen a1 h1 batches 0
    { params := s0.params, grad := s0.grad, lossSum := 0 }).2
  have hl2 := (frozen_loop M hfrozen a2 h2 batches 0
    { params := s0.params, grad := s0.grad, lossSum := 0 }).2
  show (train_loop M a1 0 { params := s0.params, grad := s0.grad, lossSum := 0 } batches).lossSum
      / (batches.length : ℚ)
    = (train_loop M a2 0 { params := s0.params, grad := s0.grad, lossSum := 0 } batches).lossSum
      / (batches.length : ℚ)
  rw [hl1, hl2]

/-- C6 amended witness: the frozen model at accumulation settings 1 and 4. -/
theorem train_accumulation_frozen_equiv_witness :
    (train frozenModel 1 s00Q fourBatches).1 = (train frozenModel 4 s00Q fourBatches).1 :=
  train_accumulation_frozen_equiv frozenModel (fun p g => rfl) 1 4 (by decide) (by decide)
    s00Q fourBatches

/-! ## Helper lemmas for the optimizer step count -/

lemma mod_succ_of_mod_ne_zero {acc i : ℕ} (hacc : acc ≠ 0) (h : (i + 1) % acc ≠ 0) :
    (i + 1) % acc = i % acc + 1 := by
  have h1 : (i + 1) % acc = (i % acc + 1) % acc := by
    conv_lhs => rw [← Nat.mod_add_div i acc, Nat.add_right_comm, Nat.add_mul_mod_self_left]
  by_cases hlt : i % acc + 1 < acc
  · rw [h1, Nat.mod_eq_of_lt hlt]
  · exfalso
    have hlt2 : i % acc < acc := Nat.mod_lt _ (Nat.pos_of_ne_zero hacc)
    have heq : i % acc + 1 = acc := by omega
    exact h (by rw [h1, heq, Nat.mod_self])

lemma count_loop_invariant {B : Type} (f : B → ℚ) (acc : ℕ) (hacc : acc ≠ 0) :
    ∀ (bs : List B) (i : ℕ) (ls : ℚ),
      (train_loop (countModel B f) acc i
          { params := i / acc, grad := i % acc, lossSum := ls } bs).params
        = (i + bs.length) / acc ∧
      (train_loop (countModel B f) acc i
          { params := i / acc, grad := i % acc, lossSum := ls } bs).grad
        = (i + bs.length) % acc := by
  intro bs
  induction bs with
  | nil => intro i ls; simp [train_loop]
  | cons b bs ih =>
      intro i ls
      have hstep : train_step (countModel B f) acc i
          { params := i / acc, grad := i % acc, lossSum := ls } b
          = { params := (i + 1) / acc, grad := (i + 1) % acc,
              lossSum := ls + f b / (acc : ℚ) * (acc : ℚ) } := by
        by_cases h : (i + 1) % acc = 0
        · have hdvd : acc ∣ i + 1 := Nat.dvd_iff_mod_eq_zero.mpr h
          have hdiv : (i + 1) / acc = i / acc + 1 := by
            rw [Nat.succ_div]
            simp [hdvd]
          simp [train_step, countModel, h, hdiv]
        · have hndvd : ¬ acc ∣ i + 1 := fun hd => h (Nat.dvd_iff_mod_eq_zero.mp hd)
          have hdiv : (i + 1) / acc = i / acc := by
            rw [Nat.succ_div]
            simp [hndvd]
          have hmod : (i + 1) % acc = i % acc + 1 := mod_succ_of_mod_ne_zero hacc h
          simp [train_step, countModel, h, hdiv, hmod]
      simp only [train_loop]
      rw [hstep]
      have h2 := ih (i + 1) (ls + f b / (acc : ℚ) * (acc : ℚ))
      have hlen : i + (b :: bs).length = i + 1 + bs.length := by
        simp [List.length_cons]
        omega
      rw [hlen]
      exact h2

/-- C9: for every epoch over N batches, the optimizer step is invoked exactly
`N / acc` times (floor division) — only at 1-based indices that are multiples
of `accumulation_steps` — and the gradient contributions of the trailing
`N % acc` batches are accumulated by backward propagation without any
optimizer step or gradient reset, so they remain in the optimizer state at
the end of the epoch.  Observed through `countModel`, whose parameter counts
`optimizer.step()` calls and whose gradient buffer counts `backward()` calls
since the last `zero_grad()`. -/
theorem train_optimizer_step_count {B : Type} (f : B → ℚ) (acc : ℕ) (hacc : acc ≠ 0)
    (batches : List B) :
    (train (countModel B f) acc tsZero batches).2.params = batches.length / acc ∧
    (train (countModel B f) acc tsZero batches).2.grad = batches.length % acc := by
  have h := count_loop_invariant f acc hacc batches 0 0
  simp only [Nat.zero_div, Nat.zero_mod, Nat.zero_add] at h
  simpa [train, tsZero] using h

/-- C9 witness: six batches with accumulation 4 give one optimizer step and
two unreset gradient accumulations. -/
theorem train_optimizer_step_count_witness :
    (train (countModel Unit uZero) 4 tsZero sixUnits).2.params = sixUnits.length / 4 ∧
    (train (countModel Unit uZero) 4 tsZero sixUnits).2.grad = sixUnits.length % 4 :=
  train_optimizer_step_count uZero 4 (by decide) sixUnits

/-! ## Helper lemma for the checkpointing policy -/

lemma checkpoint_fold_invariant {S : Type} :
    ∀ (l : List (ℚ × S)) (cs : CheckState S),
      (l.foldl checkpoint_step cs).best ≤ cs.best ∧
      (∀ e ∈ l, (l.foldl checkpoint_step cs).best ≤ e.1) ∧
      (((l.foldl checkpoint_step cs).best = cs.best ∧
          (l.foldl checkpoint_step cs).savedFile = cs.savedFile) ∨
        ∃ e ∈ l, (l.foldl checkpoint_step cs).best = e.1 ∧
          (l.foldl checkpoint_step cs).savedFile = some e.2) := by
  intro l
  induction l with
  | nil =>
      intro cs
      exact ⟨le_refl _, fun e he => absurd he (List.not_mem_nil e), Or.inl ⟨rfl, rfl⟩⟩
  | cons e l ih =>
      intro cs
      simp only [List.foldl_cons]
      by_cases h : e.1 < cs.best
      · have hcs : checkpoint_step cs e
            = { best := e.1, bestState := e.2, savedFile := some e.2 } := by
          simp [checkpoint_step, h]
        rw [hcs]
        have ihh := ih { best := e.1, bestState := e.2, savedFile := some e.2 }
        refine ⟨le_trans ihh.1 (le_of_lt h), ?_, ?_⟩
        · intro x hx
          rcases List.mem_cons.mp hx with hx1 | hx2
          · subst hx1
            exact ihh.1
          · exact ihh.2.1 x hx2
        · rcases ihh.2.2 with ⟨hb, hsf⟩ | ⟨x, hx, hb, hsf⟩
          · exact Or.inr ⟨e, List.mem_cons_self e l, hb, hsf⟩
          · exact Or.inr ⟨x, List.mem_cons_of_mem e hx, hb, hsf⟩
      · have hcs : checkpoint_step cs e = cs := by simp [checkpoint_step, h]
        rw [hcs]
        have ihh := ih cs
        refine ⟨ihh.1, ?_, ?_⟩
        · intro x hx
          rcases List.mem_cons.mp hx with hx1 | hx2
          · subst hx1
            exact le_trans ihh.1 (not_lt.mp h)
          · exact ihh.2.1 x hx2
        · rcases ihh.2.2 with hl | ⟨x, hx, hb, hsf⟩
          · exact Or.inl hl
          · exact Or.inr ⟨x, List.mem_cons_of_mem e hx, hb, hsf⟩

/-! ## Claim theorems: checkpointing, shapes, name resolution -/

/-- C7: with the fixed initial `best_metric = 100.0` and validation losses
below it (Dice losses always are, lying in [0, 1)), the policy compares each
epoch in the strictly-lower-is-better direction, persists the model state to
the fixed path exactly on improvement, and at any point the tracked best
metric is the minimum of all validation losses observed so far while the
checkpoint file holds the state of an epoch that achieved that minimum. -/
theorem checkpoint_best_min {S : Type} (s0 : S) (epochs : List (ℚ × S))
    (hne : epochs ≠ []) (hlt : ∀ e ∈ epochs, e.1 < 100) :
    (∀ e ∈ epochs, (checkpoint_run s0 epochs).best ≤ e.1) ∧
    ∃ e ∈ epochs, (checkpoint_run s0 epochs).best = e.1 ∧
      (checkpoint_run s0 epochs).savedFile = some e.2 := by
  have h := checkpoint_fold_invariant epochs
    { best := 100, bestState := s0, savedFile := none }
  refine ⟨h.2.1, ?_⟩
  rcases h.2.2 with ⟨hb, _⟩ | hex
  · exfalso
    cases epochs with
    | nil => exact hne rfl
    | cons e l =>
        have h1 := h.2.1 e (List.mem_cons_self e l)
        have h2 := hlt e (List.mem_cons_self e l)
        have h3 : (100 : ℚ) ≤ e.1 := le_of_eq_of_le hb.symm h1
        linarith
  · exact hex

/-- C7 witness: with losses 1/2, 1/4, 3/4 the tracked best is at most 1/4. -/
theorem checkpoint_best_min_witness :
    (checkpoint_run (0 : ℕ) epochsEx).best ≤ 1 / 4 :=
  (checkpoint_best_min 0 epochsEx (by simp [epochsEx])
    (by norm_num [epochsEx, List.forall_mem_cons])).1 (1 / 4, 20) (by norm_num [epochsEx])

/-- C8 counterexample: logits of shape (2, 6, 4, 4, 4) against a target of
shape (2, 1, 4, 4, 1): the spatial dimensions disagree (last spatial axis 4
versus 1), no precondition check exists anywhere in the computation, and the
elementwise product silently broadcasts the size-1 axis, so a per-class
result is produced instead of a reported failure. -/
theorem dice_shape_silent_broadcast :
    dice_scores_shape [2, 6, 4, 4, 4] [2, 1, 4, 4, 1] = some [5] ∧ (4 : ℕ) ≠ 1 := by
  constructor
  · rfl
  · decide

/-- C8 amended: the Dice computation performs no explicit shape check; it
fails exactly when some corresponding dimension pair is not
broadcast-compatible (the sizes differ and neither is 1) — the error
surfacing from the elementwise product — while any mismatched dimension of
size 1 is silently broadcast into a result. -/
theorem dice_shape_none_iff (b1 b2 d1 d2 e1 e2 w1 w2 : ℕ) :
    dice_scores_shape [b1, 6, d1, e1, w1] [b2, 1, d2, e2, w2] = none ↔
      (broadcastDim b1 b2 = none ∨ broadcastDim d1 d2 = none ∨
        broadcastDim e1 e2 = none ∨ broadcastDim w1 w2 = none) := by
  cases hb : broadcastDim b1 b2 <;> cases hd : broadcastDim d1 d2 <;>
    cases he : broadcastDim e1 e2 <;> cases hw : broadcastDim w1 w2 <;>
      simp [dice_scores_shape, broadcastShape, hb, hd, he, hw,
        show broadcastDim 5 5 = some 5 from rfl]

/-- C10: every call to `get_test_dataloader`, whatever the `batch_size`
argument, raises `NameError` before returning, because the `DataLoader`
construction references the unbound identifier `val_batch`; and the
predict-only entry point calls `get_test_dataloader` before checking for the
checkpoint file, so it fails at that call whether or not the checkpoint
exists. -/
theorem get_test_dataloader_name_error (n : ℕ) (b : Bool) :
    get_test_dataloader n = Except.error ("NameError: name val_batch is not defined") ∧
    predict_main b = Except.error ("NameError: name val_batch is not defined") := by
  constructor
  · rfl
  · cases b <;> rfl

end SegmentProstate
